import Mathlib

/-!
Verification of `pyrff/rff.py` (random fourier features).

Shallow embedding of the module `pyrff/rff.py` over the rationals.
Real-valued numpy arrays are modelled as `Matrix (Fin n) (Fin m) ℚ`
(respectively `Fin n → ℚ` for 1D arrays); the transcendental library
functions `numpy.cos`, `numpy.sin`, `numpy.sqrt` and the constant `numpy.pi`
are abstracted into a `NumOps` record that every theorem quantifies over.
Random draws are modelled by an oracle (`Env.draw`) that receives the
distribution the code requests (`numpy.random.normal`,
`scipy.stats.t.rvs`, `numpy.random.uniform`) together with the entry index,
and returns the sampled value; the documented argument validation of those
samplers (ValueError on a negative scale, on a non-positive Student-t df)
is the deterministic `Dist.valid` check.  The fallible linear-algebra
primitives `scipy.linalg.cho_factor`, `scipy.linalg.cho_solve` and
`scipy.linalg.inv` are oracle fields returning `Except`.
-/

namespace Pyrff

open scoped Matrix

/-- Python exceptions that `rff.py` and the libraries it calls can raise. -/
inductive PyErr where
  | shapeError
  | dtypeError
  | valueError
  | assertionError
  | linAlgError
  | indexError
  | otherError (n : ℕ)
  deriving DecidableEq

/-- Abstraction of the transcendental numpy primitives used by the code. -/
structure NumOps where
  cos : ℚ → ℚ
  sin : ℚ → ℚ
  sqrt : ℚ → ℚ
  pi : ℚ

/-- A float that may be infinite: the `kernel_nu` argument can be
`numpy.inf` (squared-exponential kernel) or a finite value (Matern). -/
inductive EFloat where
  | fin (x : ℚ)
  | inf
  | ninf
  deriving DecidableEq

/-- Model of `numpy.isinf` on the modelled float. -/
def EFloat.isinf : EFloat → Bool
  | .inf => true
  | .ninf => true
  | .fin _ => false

/-- The finite value carried by an `EFloat` (0 for the infinities;
only ever used on the finite branch). -/
def EFloat.val : EFloat → ℚ
  | .fin x => x
  | .inf => 0
  | .ninf => 0

/-- The comparison `e > 0` on the modelled float. -/
def EFloat.gtZero : EFloat → Bool
  | .inf => true
  | .ninf => false
  | .fin x => decide (0 < x)

/-- A numpy array of rank 0, 1 or 2 (the only ranks the claims exercise). -/
inductive Arr (α : Type) where
  | scalarA (x : α)
  | vec (n : ℕ) (v : Fin n → α)
  | mat (n m : ℕ) (A : Matrix (Fin n) (Fin m) α)

/-- Model of `numpy.ndim`. -/
def Arr.ndim {α : Type} : Arr α → ℕ
  | .scalarA _ => 0
  | .vec _ _ => 1
  | .mat _ _ _ => 2

/-- Model of `numpy.isscalar` (true for a Python scalar, false for any ndarray). -/
def Arr.isscalar {α : Type} : Arr α → Bool
  | .scalarA _ => true
  | _ => false

/-- The shape of `numpy.atleast_2d x` (always a pair for rank ≤ 2 input). -/
def Arr.shape2 {α : Type} : Arr α → ℕ × ℕ
  | .scalarA _ => (1, 1)
  | .vec n _ => (1, n)
  | .mat n m _ => (n, m)

/-- Model of `len(numpy.atleast_1d x)`, i.e. the leading dimension after
1D-normalization. -/
def Arr.len1 {α : Type} : Arr α → ℕ
  | .scalarA _ => 1
  | .vec n _ => n
  | .mat n _ _ => n

/-- The shape of `numpy.atleast_1d x` as a list of dimensions. -/
def Arr.shapeA1 {α : Type} : Arr α → List ℕ
  | .scalarA _ => [1]
  | .vec n _ => [n]
  | .mat n m _ => [n, m]

/-- The data of `numpy.atleast_2d x` as a matrix of its `shape2`. -/
def Arr.a2mat {α : Type} : (X : Arr α) → Matrix (Fin X.shape2.1) (Fin X.shape2.2) α
  | .scalarA x => fun _ _ => x
  | .vec _ v => fun _ j => v j
  | .mat _ _ A => A

/-- The value of a 0-dimensional argument (0 on the dead branches). -/
def Arr.sval : Arr ℚ → ℚ
  | .scalarA x => x
  | .vec _ _ => 0
  | .mat _ _ _ => 0

/-- A distribution request handed to the random-sampling libraries. -/
inductive Dist where
  | normal (loc scale : ℚ)
  | studentT (df loc scale : ℚ)
  | uniform (lo hi : ℚ)
  deriving DecidableEq

/-- Argument validation done by the samplers themselves:
`numpy.random.normal` raises `ValueError` iff `scale < 0`;
`scipy.stats.t.rvs` raises `ValueError` iff the shape arguments are out of
domain (`df <= 0` or `scale < 0`); `numpy.random.uniform` accepts any
bounds. -/
def Dist.valid : Dist → Bool
  | .normal _ scale => decide (0 ≤ scale)
  | .studentT df _ scale => decide (0 < df ∧ 0 ≤ scale)
  | .uniform _ _ => true

/-- Oracles for the random and fallible library calls.
`draw tag i j d` is the value produced for the entry `(i, j)` of a bulk
draw from distribution `d` (`tag` separates the distinct library calls);
`mvnDraw` is `numpy.random.multivariate_normal`; the three matrix oracles
are `scipy.linalg.cho_factor`, `scipy.linalg.cho_solve` and
`scipy.linalg.inv`. -/
structure Env where
  draw : ℕ → ℕ → ℕ → Dist → ℚ
  mvnDraw : (m : ℕ) → (Fin m → ℚ) → Matrix (Fin m) (Fin m) ℚ → Fin m → ℚ
  choFactor : (m : ℕ) → Matrix (Fin m) (Fin m) ℚ → Except PyErr (Matrix (Fin m) (Fin m) ℚ)
  choSolve : (m : ℕ) → Matrix (Fin m) (Fin m) ℚ → Matrix (Fin m) (Fin m) ℚ →
    Except PyErr (Matrix (Fin m) (Fin m) ℚ)
  matInv : (m : ℕ) → Matrix (Fin m) (Fin m) ℚ → Except PyErr (Matrix (Fin m) (Fin m) ℚ)

/-- The body of the `try:` block of `_compute_inverse`:
`A_cholesky = scipy.linalg.cho_factor(A)` followed by
`A_inverse = scipy.linalg.cho_solve(A_cholesky, numpy.eye(A.shape[0]))`. -/
def choPath (env : Env) (m : ℕ) (A : Matrix (Fin m) (Fin m) ℚ) :
    Except PyErr (Matrix (Fin m) (Fin m) ℚ) :=
  env.choFactor m A >>= fun c => env.choSolve m c 1

/-- Embedding of `_compute_inverse` (rff.py lines 15-26): try the Cholesky path; the
`except scipy.linalg.LinAlgError:` handler falls back to
`scipy.linalg.inv(A)`; any other exception, and any exception raised by
the fallback itself, propagates to the caller. -/
def compute_inverse (env : Env) (m : ℕ) (A : Matrix (Fin m) (Fin m) ℚ) :
    Except PyErr (Matrix (Fin m) (Fin m) ℚ) :=
  match choPath env m A with
  | .ok Ainv => .ok Ainv
  | .error .linAlgError => env.matInv m A
  | .error e => .error e

/-- The per-dimension distribution of the spectral-frequency sampler `p_w`
(rff.py lines 124-130): Gaussian with `loc=0, scale=1/lengthscales` when
`numpy.isinf(kernel_nu)`, otherwise Student-t with
`loc=0, scale=1/lengthscales, df=kernel_nu`.  `size=(M, D)` broadcasts the
`(D,)`-shaped scale across rows, so the distribution depends only on the
column `d`. -/
def p_w {D : ℕ} (kernel_nu : EFloat) (lengthscales : Fin D → ℚ) (d : Fin D) : Dist :=
  if kernel_nu.isinf then .normal 0 (1 / lengthscales d)
  else .studentT kernel_nu.val 0 (1 / lengthscales d)

/-- Line 132, `W = p_w(size=(M, D))`: the library first validates the
distribution arguments (raising `ValueError` when a scale is negative or a
Student-t df is non-positive) and otherwise fills the `(M, D)` array with
draws.  The shape assertion of line 133 holds by the result type. -/
def sampleW (env : Env) {D : ℕ} (M : ℕ) (kernel_nu : EFloat) (lengthscales : Fin D → ℚ) :
    Except PyErr (Matrix (Fin M) (Fin D) ℚ) :=
  if _h : ∀ d : Fin D, (p_w kernel_nu lengthscales d).valid = true then
    .ok (Matrix.of fun m d => env.draw 0 m.val d.val (p_w kernel_nu lengthscales d))
  else .error .valueError

/-- Line 134, `B = numpy.random.uniform(0, 2*numpy.pi, size=(M, 1))`.
The shape assertion of line 135 holds by the result type. -/
def sampleB (env : Env) (ops : NumOps) (M : ℕ) : Matrix (Fin M) (Fin 1) ℚ :=
  Matrix.of fun m j => env.draw 1 m.val j.val (.uniform 0 (2 * ops.pi))

/-- Line 137, `alpha = scaling**2`. -/
def alphaOf (scaling : ℚ) : ℚ := scaling ^ 2

/-- Line 139, `sqrt_2_alpha_over_m = numpy.sqrt(2*alpha/M)`. -/
def sqrt_2_alpha_over_m (ops : NumOps) (scaling : ℚ) (M : ℕ) : ℚ :=
  ops.sqrt (2 * alphaOf scaling / (M : ℚ))

/-- Line 141,
`zeta = sqrt_2_alpha_over_m * numpy.cos(numpy.dot(W, X.T) + B)`.  `B` has shape `(M, 1)` and broadcasts along columns. -/
def zetaOf (ops : NumOps) {M N D : ℕ} (s2am : ℚ) (W : Matrix (Fin M) (Fin D) ℚ)
    (B : Matrix (Fin M) (Fin 1) ℚ) (X : Matrix (Fin N) (Fin D) ℚ) :
    Matrix (Fin M) (Fin N) ℚ :=
  Matrix.of fun m n => s2am * ops.cos ((W * Xᵀ) m n + B m 0)

/-- Line 144,
`A = numpy.divide(numpy.dot(zeta, zeta.T), noise) + numpy.eye(M)`. -/
def gramA {M N : ℕ} (zeta : Matrix (Fin M) (Fin N) ℚ) (noise : ℚ) :
    Matrix (Fin M) (Fin M) ℚ :=
  (zeta * zetaᵀ).map (fun a => a / noise) + 1

/-- Line 147,
`mean_of_post_theta = numpy.divide(numpy.dot(numpy.dot(A_inverse, zeta), Y), noise)`. -/
def mean_of_post_theta {M N : ℕ} (Ainv : Matrix (Fin M) (Fin M) ℚ)
    (zeta : Matrix (Fin M) (Fin N) ℚ) (Y : Fin N → ℚ) (noise : ℚ) : Fin M → ℚ :=
  fun i => (Ainv * zeta).mulVec Y i / noise

/-- The immutable data captured by the closures returned from `sample_rff`:
`W`, `B`, `sample_of_theta`, `sqrt_2_alpha_over_m` (and the dimensions
`M`, `D` in the indices). -/
structure Captured (M D : ℕ) where
  W : Matrix (Fin M) (Fin D) ℚ
  B : Matrix (Fin M) (Fin 1) ℚ
  theta : Fin M → ℚ
  s2am : ℚ

/-- Embedding of `rff_approximation` (lines 156-175): the closure body takes a 2D array
`x`; `N = x.shape[0]`; `assert x.shape == (N, D)` fails with
`AssertionError` exactly when the trailing dimension differs from the
captured `D`; then
`phi_x = sqrt_2_alpha_over_m*numpy.cos(numpy.dot(W, x.T) + B)` and
`approx_y = numpy.dot(phi_x.T, sample_of_theta)`.  The assertions on
`phi_x.shape` and `approx_y.shape` hold by the types. -/
def rff_approximation (ops : NumOps) {M D : ℕ} (c : Captured M D) (Np Dp : ℕ)
    (x : Matrix (Fin Np) (Fin Dp) ℚ) : Except PyErr (Fin Np → ℚ) :=
  if h : Dp = D then
    let x2 : Matrix (Fin Np) (Fin D) ℚ := Matrix.of fun i j => x i (Fin.cast h.symm j)
    let phi_x : Matrix (Fin M) (Fin Np) ℚ :=
      Matrix.of fun m n => c.s2am * ops.cos ((c.W * x2ᵀ) m n + c.B m 0)
    .ok (phi_xᵀ.mulVec c.theta)
  else .error .assertionError

/-- Embedding of `rff_approximation_gradient` (lines 177-199): after the same shape
assertion, `temp = numpy.sin(numpy.dot(W, x.T) + B)` and, for each row
`n`, `gradient[n] = numpy.dot(-sqrt_2_alpha_over_m * temp[:,n] * W.T,
sample_of_theta)` (broadcasting the `(M,)` column of `temp` across the
rows of the `(D, M)` matrix `W.T`). -/
def rff_approximation_gradient (ops : NumOps) {M D : ℕ} (c : Captured M D) (Np Dp : ℕ)
    (x : Matrix (Fin Np) (Fin Dp) ℚ) : Except PyErr (Fin Np → Fin D → ℚ) :=
  if h : Dp = D then
    let x2 : Matrix (Fin Np) (Fin D) ℚ := Matrix.of fun i j => x i (Fin.cast h.symm j)
    let temp : Matrix (Fin M) (Fin Np) ℚ :=
      Matrix.of fun m n => ops.sin ((c.W * x2ᵀ) m n + c.B m 0)
    .ok (fun n => Matrix.mulVec (Matrix.of fun d m => -c.s2am * temp m n * c.W m d) c.theta)
  else .error .assertionError

/-- The `_vectorize` decorator (lines 29-40): `x2d = numpy.atleast_2d(x)`;
a rank-1 input is expanded to `(1, L)` and the result is indexed with
`[0]` (dropping one rank, via `scalarOf`); any other input is passed
through and the result keeps its rank (via `vecOf`).  It is generic in
the wrapped function, which here always produces one result row per input
row. -/
def vectorize {α : Type} (scalarOf : α → Arr ℚ) (vecOf : (n : ℕ) → (Fin n → α) → Arr ℚ)
    (fn : (Np Dp : ℕ) → Matrix (Fin Np) (Fin Dp) ℚ → Except PyErr (Fin Np → α)) :
    Arr ℚ → Except PyErr (Arr ℚ)
  | .scalarA x => (fn 1 1 (Matrix.of fun _ _ => x)).map (vecOf 1)
  | .vec L v => (fn 1 L (Matrix.of fun _ j => v j)).map (fun out => scalarOf (out 0))
  | .mat n m A => (fn n m A).map (vecOf n)

/-- The triple returned by `sample_rff` (lines 207-211).  `numba.njit` is
an execution strategy and is modelled as the identity on semantics, so
`f_rff_njit` computes the same function as `f_rff`. -/
structure RffFns where
  f_rff : Arr ℚ → Except PyErr (Arr ℚ)
  f_rff_njit : Arr ℚ → Except PyErr (Arr ℚ)
  g_rff_njit : Arr ℚ → Except PyErr (Arr ℚ)

/-- Lines 206-211: wrap the two closures with `_vectorize`. -/
def buildFns (ops : NumOps) {M D : ℕ} (c : Captured M D) : RffFns where
  f_rff := vectorize Arr.scalarA Arr.vec (rff_approximation ops c)
  f_rff_njit := vectorize Arr.scalarA Arr.vec (rff_approximation ops c)
  g_rff_njit := vectorize (Arr.vec D) (fun n out => Arr.mat n D (Matrix.of out))
    (rff_approximation_gradient ops c)

/-- Line 121-122:
`if not numpy.isscalar(kernel_nu) and kernel_nu > 0: raise DtypeError(...)`.
Python precedence parses this as `(not isscalar(kernel_nu)) and (kernel_nu > 0)`,
so a scalar `kernel_nu` never raises, whatever its sign, while a 1-element
array raises `DtypeError` exactly when its value is positive; for an array
with more than one element the comparison result has no truth value and
evaluating the `and` raises `ValueError`.  On success the downstream code
only uses the (effectively scalar) value, which we extract. -/
def kernel_nu_check : Arr EFloat → Except PyErr EFloat
  | .scalarA x => .ok x
  | .vec 1 v => if (v 0).gtZero then .error .dtypeError else .ok (v 0)
  | .mat 1 1 A => if (A 0 0).gtZero then .error .dtypeError else .ok (A 0 0)
  | .vec _ _ => .error .valueError
  | .mat _ _ _ => .error .valueError

/-- The data of `numpy.atleast_1d lengthscales` as a `(D,)` vector, given
that its shape check against `(D,)` succeeded. -/
def lsVec : (ls : Arr ℚ) → (D : ℕ) → ls.shapeA1 = [D] → Fin D → ℚ
  | .scalarA x, _, _ => fun _ => x
  | .vec _ v, _, h => fun i => v (Fin.cast (by injection h with h1; exact h1.symm) i)
  | .mat _ _ _, _, h => absurd h (by simp [Arr.shapeA1])

/-- Lines 124-211 of `sample_rff`, after validation, for a 1D-normalized
`Y`: sample `W` and `B`, build `zeta`, the Gram matrix `A` and its inverse,
the posterior mean/covariance of theta, draw `sample_of_theta`, build the
three callables, and run the self-check of lines 201-204 (which indexes
`X[0]` — an `IndexError` when there are no observations — and asserts the
output shapes of the two closures on a duplicated-row probe). -/
def sampleCore (env : Env) (ops : NumOps) (M N D : ℕ) (lengthscales : Fin D → ℚ)
    (scaling noise : ℚ) (kernel_nu : EFloat) (X : Matrix (Fin N) (Fin D) ℚ)
    (Y : Fin N → ℚ) : Except PyErr RffFns :=
  match sampleW env M kernel_nu lengthscales with
  | .error e => .error e
  | .ok W =>
    let B := sampleB env ops M
    let s2am := sqrt_2_alpha_over_m ops scaling M
    let zeta := zetaOf ops s2am W B X
    let A := gramA zeta noise
    match compute_inverse env M A with
    | .error e => .error e
    | .ok A_inverse =>
      let mean := mean_of_post_theta A_inverse zeta Y noise
      let variance_of_post_theta := A_inverse
      let sample_of_theta := env.mvnDraw M mean variance_of_post_theta
      let cap : Captured M D := ⟨W, B, sample_of_theta, s2am⟩
      let fns := buildFns ops cap
      if hN : N = 0 then .error .indexError
      else
        let Xtest : Matrix (Fin 2) (Fin D) ℚ :=
          Matrix.of fun _ j => X ⟨0, Nat.pos_of_ne_zero hN⟩ j
        match rff_approximation ops cap 2 D Xtest,
            rff_approximation_gradient ops cap 2 D Xtest with
        | .ok _, .ok _ => .ok fns
        | _, _ => .error .assertionError

/-- Lines 124-148 for a `Y` that is still 2D after `numpy.atleast_1d`:
the validation of line 113 only compares `len(Y)` with `X.shape[0]`, so
the pipeline runs through sampling and inversion, but
`mean_of_post_theta` then has shape `(M, Y.shape[1])` and the assertion
`mean_of_post_theta.shape == (M,)` of line 148 fails. -/
def sampleCore2dY (env : Env) (ops : NumOps) (M N D : ℕ) (lengthscales : Fin D → ℚ)
    (scaling noise : ℚ) (kernel_nu : EFloat) (X : Matrix (Fin N) (Fin D) ℚ) :
    Except PyErr RffFns :=
  match sampleW env M kernel_nu lengthscales with
  | .error e => .error e
  | .ok W =>
    let zeta := zetaOf ops (sqrt_2_alpha_over_m ops scaling M) W (sampleB env ops M) X
    match compute_inverse env M (gramA zeta noise) with
    | .error e => .error e
    | .ok _ => .error .assertionError

/-- Embedding of `sample_rff` (lines 43-211).  Lines 107-122 validate:
`X = numpy.atleast_2d(X)`, `Y = numpy.atleast_1d(Y)`, `D = X.shape[1]`,
`N_obs = len(Y)`, `lengthscales = numpy.atleast_1d(lengthscales)`;
`ShapeError` when `X.shape != (N_obs, D)` (for rank ≤ 2 input this is
exactly `X.shape[0] != N_obs`), when `lengthscales.shape != (D,)`, when
`scaling` or `noise` is not 0-dimensional; then the (buggy) `kernel_nu`
check.  Only afterwards does any sampling happen. -/
def sample_rff (env : Env) (ops : NumOps) (lengthscales scaling noise : Arr ℚ)
    (kernel_nu : Arr EFloat) (X Y : Arr ℚ) (M : ℕ) : Except PyErr RffFns :=
  if hxy : X.shape2.1 = Y.len1 then
    if hls : lengthscales.shapeA1 = [X.shape2.2] then
      if Arr.ndim scaling = 0 then
        if Arr.ndim noise = 0 then
          match kernel_nu_check kernel_nu with
          | .error e => .error e
          | .ok kn =>
            match Y, hxy with
            | .mat _ _ _, _ =>
              sampleCore2dY env ops M X.shape2.1 X.shape2.2
                (lsVec lengthscales X.shape2.2 hls) scaling.sval noise.sval kn X.a2mat
            | .scalarA y, _ =>
              sampleCore env ops M X.shape2.1 X.shape2.2
                (lsVec lengthscales X.shape2.2 hls) scaling.sval noise.sval kn X.a2mat
                (fun _ => y)
            | .vec _ v, hxy2 =>
              sampleCore env ops M X.shape2.1 X.shape2.2
                (lsVec lengthscales X.shape2.2 hls) scaling.sval noise.sval kn X.a2mat
                (fun i => v (Fin.cast hxy2 i))
        else .error .shapeError
      else .error .shapeError
    else .error .shapeError
  else .error .shapeError

/-- One evaluation of the returned `f_rff` with the captured state
threaded explicitly.  The closure body (lines 156-175) only reads the
captured arrays — every numpy call in it allocates a fresh result and no
statement assigns to `W`, `B`, `sample_of_theta` or
`sqrt_2_alpha_over_m` — so a step returns its output together with the
captured state it leaves behind, which is the state it entered with. -/
def evalF (ops : NumOps) {M D : ℕ} (c : Captured M D) (x : Arr ℚ) :
    Except PyErr (Arr ℚ) × Captured M D :=
  ((buildFns ops c).f_rff x, c)

/-- One state-threaded evaluation of the returned `f_rff_njit` (the
compiled strategy computes the same pure function). -/
def evalFnjit (ops : NumOps) {M D : ℕ} (c : Captured M D) (x : Arr ℚ) :
    Except PyErr (Arr ℚ) × Captured M D :=
  ((buildFns ops c).f_rff_njit x, c)

/-- One state-threaded evaluation of the returned `g_rff_njit` (lines
177-199 likewise contain no store to the captured arrays). -/
def evalG (ops : NumOps) {M D : ℕ} (c : Captured M D) (x : Arr ℚ) :
    Except PyErr (Arr ℚ) × Captured M D :=
  ((buildFns ops c).g_rff_njit x, c)

/-! ## Definitions written from the specification text (for comparison) -/

/-- Spec 4.3: `phi(x) = sqrt(2*alpha/M) * cos(W*x^T + B)`, a matrix of
shape (M, Np), for `W : (M,D)`, `B : (M,1)`, `alpha = scaling^2`. -/
def phiSpec (ops : NumOps) {M D Np : ℕ} (W : Matrix (Fin M) (Fin D) ℚ)
    (B : Matrix (Fin M) (Fin 1) ℚ) (alpha : ℚ) (x : Matrix (Fin Np) (Fin D) ℚ) :
    Matrix (Fin M) (Fin Np) ℚ :=
  Matrix.of fun m n => ops.sqrt (2 * alpha / (M : ℚ)) * ops.cos ((W * xᵀ) m n + B m 0)

/-- Spec 4.4: `A = zeta*zeta^T/sigma^2 + I_M`. -/
def gramASpec {M N : ℕ} (zeta : Matrix (Fin M) (Fin N) ℚ) (noise : ℚ) :
    Matrix (Fin M) (Fin M) ℚ :=
  (zeta * zetaᵀ).map (fun a => a / noise) + 1

/-- Spec 4.4: `posterior mean of theta = A_inv * zeta * Y / sigma^2`. -/
def postMeanSpec {M N : ℕ} (Ainv : Matrix (Fin M) (Fin M) ℚ)
    (zeta : Matrix (Fin M) (Fin N) ℚ) (Y : Fin N → ℚ) (noise : ℚ) : Fin M → ℚ :=
  fun i => (Ainv * zeta).mulVec Y i / noise

/-- Spec 4.6: `f(x) = phi(x)^T * theta`. -/
def fSpec (ops : NumOps) {M D Np : ℕ} (W : Matrix (Fin M) (Fin D) ℚ)
    (B : Matrix (Fin M) (Fin 1) ℚ) (alpha : ℚ) (theta : Fin M → ℚ)
    (x : Matrix (Fin Np) (Fin D) ℚ) : Fin Np → ℚ :=
  (phiSpec ops W B alpha x)ᵀ.mulVec theta

/-- Spec 4.6: per input row `n`,
`df/dx_n = (-sqrt(2*alpha/M) * sin(W*x_n + B) ⊙ W)^T * theta`. -/
def gradSpec (ops : NumOps) {M D Np : ℕ} (W : Matrix (Fin M) (Fin D) ℚ)
    (B : Matrix (Fin M) (Fin 1) ℚ) (alpha : ℚ) (theta : Fin M → ℚ)
    (x : Matrix (Fin Np) (Fin D) ℚ) : Fin Np → Fin D → ℚ :=
  fun n d => ∑ m, -(ops.sqrt (2 * alpha / (M : ℚ))) *
    ops.sin ((W * xᵀ) m n + B m 0) * W m d * theta m

/-! ## Concrete library instances used by the closed witness theorems -/

/-- A concrete oracle environment: every draw returns 0, the Cholesky
factorization and solve both succeed (returning their input). -/
def env0 : Env where
  draw := fun _ _ _ _ => 0
  mvnDraw := fun _ _ _ _ => 0
  choFactor := fun _ A => .ok A
  choSolve := fun _ c _ => .ok c
  matInv := fun _ A => .ok A

/-- A concrete environment whose Cholesky factorization fails with
`LinAlgError` and whose general inversion succeeds. -/
def envLinAlg : Env where
  draw := fun _ _ _ _ => 0
  mvnDraw := fun _ _ _ _ => 0
  choFactor := fun _ _ => .error .linAlgError
  choSolve := fun _ c _ => .ok c
  matInv := fun _ A => .ok (A.map (fun a => a + 1))

/-- A concrete environment whose Cholesky factorization fails with a
non-linear-algebra error (`ValueError`). -/
def envOther : Env where
  draw := fun _ _ _ _ => 0
  mvnDraw := fun _ _ _ _ => 0
  choFactor := fun _ _ => .error .valueError
  choSolve := fun _ c _ => .ok c
  matInv := fun _ A => .ok A

/-- Concrete transcendental stubs (the claims hold for every `NumOps`;
the witnesses evaluate at this one). -/
def ops0 : NumOps where
  cos := fun x => x
  sin := fun x => x
  sqrt := fun x => x
  pi := 3

/-! ## Claim theorems -/

/-- Claim C4: the matrix-inverse routine first attempts the Cholesky
factorization/solve; if and only if that fails with the
numerical-linear-algebra error does it fall back to exactly one call of
the general inversion, whose outcome — including a failure — is returned
unchanged to the caller with no third fallback; a non-linear-algebra
failure of the Cholesky path propagates unchanged without fallback. -/
theorem compute_inverse_fallback (env : Env) (m : ℕ) (A : Matrix (Fin m) (Fin m) ℚ) :
    (∀ R, choPath env m A = .ok R → compute_inverse env m A = .ok R)
    ∧ (choPath env m A = .error .linAlgError →
        compute_inverse env m A = env.matInv m A)
    ∧ (∀ e, e ≠ PyErr.linAlgError → choPath env m A = .error e →
        compute_inverse env m A = .error e) := by
  refine ⟨?_, ?_, ?_⟩
  · intro R h
    unfold compute_inverse
    rw [h]
  · intro h
    unfold compute_inverse
    rw [h]
  · intro e he h
    unfold compute_inverse
    rw [h]
    cases e <;> first | rfl | exact absurd rfl he

/-- Witness for C4 at concrete environments: a succeeding Cholesky path,
a `LinAlgError` Cholesky path whose fallback result is returned, and a
`ValueError` Cholesky path that propagates. -/
theorem compute_inverse_fallback_witness :
    compute_inverse env0 1 1 = .ok 1
    ∧ compute_inverse envLinAlg 1 1 = envLinAlg.matInv 1 1
    ∧ compute_inverse envOther 1 1 = .error .valueError :=
  ⟨(compute_inverse_fallback env0 1 1).1 1 rfl,
   (compute_inverse_fallback envLinAlg 1 1).2.1 rfl,
   (compute_inverse_fallback envOther 1 1).2.2 .valueError (by decide) rfl⟩

/-- Claim C9: with the captured state of the closures threaded explicitly,
each of the three returned callables leaves the captured `W`, `B`, `theta`
(and scale) unchanged, and evaluating the same callable twice in sequence
on the same input produces the same output. -/
theorem returned_callables_pure (ops : NumOps) {M D : ℕ} (c : Captured M D) (x : Arr ℚ) :
    ((evalF ops c x).2 = c ∧ (evalF ops (evalF ops c x).2 x).1 = (evalF ops c x).1)
    ∧ ((evalFnjit ops c x).2 = c
        ∧ (evalFnjit ops (evalFnjit ops c x).2 x).1 = (evalFnjit ops c x).1)
    ∧ ((evalG ops c x).2 = c ∧ (evalG ops (evalG ops c x).2 x).1 = (evalG ops c x).1) :=
  ⟨⟨rfl, rfl⟩, ⟨rfl, rfl⟩, ⟨rfl, rfl⟩⟩

/-- A concrete captured state for the closed witnesses. -/
def cap0 : Captured 1 1 :=
  ⟨Matrix.of fun _ _ => 1, Matrix.of fun _ _ => 1, fun _ => 1, 1⟩

/-- Claim C10: on any 2D input whose trailing dimension differs from the
captured `D`, and on any 1D input whose length differs from `D`, each of
the three returned callables fails with `AssertionError` (from the
`assert x.shape == (N, D)` inside the closure bodies), not with
`ShapeError`. -/
theorem closure_shape_assertion (ops : NumOps) {M D : ℕ} (c : Captured M D)
    (Np Dp L : ℕ) (x : Matrix (Fin Np) (Fin Dp) ℚ) (v : Fin L → ℚ)
    (hD : Dp ≠ D) (hL : L ≠ D) :
    ((buildFns ops c).f_rff (.mat Np Dp x) = .error .assertionError)
    ∧ ((buildFns ops c).f_rff_njit (.mat Np Dp x) = .error .assertionError)
    ∧ ((buildFns ops c).g_rff_njit (.mat Np Dp x) = .error .assertionError)
    ∧ ((buildFns ops c).f_rff (.vec L v) = .error .assertionError)
    ∧ ((buildFns ops c).f_rff_njit (.vec L v) = .error .assertionError)
    ∧ ((buildFns ops c).g_rff_njit (.vec L v) = .error .assertionError) := by
  refine ⟨?_, ?_, ?_, ?_, ?_, ?_⟩ <;>
    simp [buildFns, vectorize, rff_approximation, rff_approximation_gradient, Except.map,
      hD, hL]

/-- Witness for C10: a `(1,2)` matrix and a length-2 vector against
captured dimension `D = 1`. -/
theorem closure_shape_assertion_witness :
    ((buildFns ops0 cap0).f_rff (.mat 1 2 (Matrix.of fun _ _ => 0)) = .error .assertionError)
    ∧ ((buildFns ops0 cap0).f_rff_njit (.mat 1 2 (Matrix.of fun _ _ => 0))
        = .error .assertionError)
    ∧ ((buildFns ops0 cap0).g_rff_njit (.mat 1 2 (Matrix.of fun _ _ => 0))
        = .error .assertionError)
    ∧ ((buildFns ops0 cap0).f_rff (.vec 2 (fun _ => 0)) = .error .assertionError)
    ∧ ((buildFns ops0 cap0).f_rff_njit (.vec 2 (fun _ => 0)) = .error .assertionError)
    ∧ ((buildFns ops0 cap0).g_rff_njit (.vec 2 (fun _ => 0)) = .error .assertionError) :=
  closure_shape_assertion ops0 cap0 1 2 2 (Matrix.of fun _ _ => 0) (fun _ => 0)
    (by decide) (by decide)

/-- Claim C5: the feature map computed from `W : (M,D)`, `B : (M,1)` and
`alpha = scaling^2` equals `sqrt(2*alpha/M) * cos(W*x^T + B)` with shape
`(M, Np)` (the shape is the result type), and the same formula is used
both for the training embedding `zeta` (line 141) and inside the returned
approximation function (line 171). -/
theorem feature_map_shared (ops : NumOps) {M N D Np : ℕ} (scaling : ℚ)
    (W : Matrix (Fin M) (Fin D) ℚ) (B : Matrix (Fin M) (Fin 1) ℚ)
    (theta : Fin M → ℚ) (X : Matrix (Fin N) (Fin D) ℚ)
    (x : Matrix (Fin Np) (Fin D) ℚ) :
    zetaOf ops (sqrt_2_alpha_over_m ops scaling M) W B X
      = phiSpec ops W B (alphaOf scaling) X
    ∧ rff_approximation ops ⟨W, B, theta, sqrt_2_alpha_over_m ops scaling M⟩ Np D x
      = .ok ((phiSpec ops W B (alphaOf scaling) x)ᵀ.mulVec theta) := by
  constructor
  · rfl
  · rw [rff_approximation, dif_pos rfl]
    rfl

/-- Claim C6: the returned plain approximation function computes
`f(x) = phi(x)^T theta`: a 2D input of shape `(Np, D)` yields the vector
of length `Np` given by the spec formula, and a 1D input of length `D`
yields the scalar obtained from its single-row batch. -/
theorem f_rff_spec (ops : NumOps) {M D Np : ℕ} (scaling : ℚ)
    (W : Matrix (Fin M) (Fin D) ℚ) (B : Matrix (Fin M) (Fin 1) ℚ)
    (theta : Fin M → ℚ) (x : Matrix (Fin Np) (Fin D) ℚ) (v : Fin D → ℚ) :
    (buildFns ops ⟨W, B, theta, sqrt_2_alpha_over_m ops scaling M⟩).f_rff (.mat Np D x)
      = .ok (.vec Np (fSpec ops W B (alphaOf scaling) theta x))
    ∧ (buildFns ops ⟨W, B, theta, sqrt_2_alpha_over_m ops scaling M⟩).f_rff (.vec D v)
      = .ok (.scalarA
          (fSpec ops W B (alphaOf scaling) theta
            (Matrix.of fun (_ : Fin 1) j => v j) 0)) := by
  constructor <;>
  · simp only [buildFns, vectorize]
    rw [rff_approximation, dif_pos rfl]
    rfl

/-- Claim C7: the returned gradient callable computes, per input row,
`(-sqrt(2*alpha/M) * sin(W*x_n + B) ⊙ W)^T theta`: shape `(N, D)` for a
2D input of shape `(N, D)`, and shape `(D,)` for a 1D input point. -/
theorem g_rff_spec (ops : NumOps) {M D Np : ℕ} (scaling : ℚ)
    (W : Matrix (Fin M) (Fin D) ℚ) (B : Matrix (Fin M) (Fin 1) ℚ)
    (theta : Fin M → ℚ) (x : Matrix (Fin Np) (Fin D) ℚ) (v : Fin D → ℚ) :
    (buildFns ops ⟨W, B, theta, sqrt_2_alpha_over_m ops scaling M⟩).g_rff_njit (.mat Np D x)
      = .ok (.mat Np D (Matrix.of (gradSpec ops W B (alphaOf scaling) theta x)))
    ∧ (buildFns ops ⟨W, B, theta, sqrt_2_alpha_over_m ops scaling M⟩).g_rff_njit (.vec D v)
      = .ok (.vec D
          (gradSpec ops W B (alphaOf scaling) theta
            (Matrix.of fun (_ : Fin 1) j => v j) 0)) := by
  constructor <;>
  · simp only [buildFns, vectorize]
    rw [rff_approximation_gradient, dif_pos rfl]
    rfl

/-- Claim C3: with the training embedding `zeta : (M,N)`, observations
`Y : (N,)` and `noise`, `sample_rff` inverts exactly the matrix
`A = zeta*zeta^T/noise + I_M`, and — whenever the inverse routine returns
`A_inverse` — draws `theta` from the multivariate normal whose mean is the
posterior mean of the spec, `A_inverse*zeta*Y/noise` (shape `(M,)`), and
whose covariance is the posterior covariance of the spec, `A_inverse` (shape
`(M,M)`). -/
theorem sample_rff_posterior (env : Env) (ops : NumOps) {M N D : ℕ}
    (ls : Fin D → ℚ) (scaling noise : ℚ) (kn : EFloat)
    (X : Matrix (Fin N) (Fin D) ℚ) (Y : Fin N → ℚ)
    (W : Matrix (Fin M) (Fin D) ℚ) (Ainv : Matrix (Fin M) (Fin M) ℚ)
    (hW : sampleW env M kn ls = .ok W)
    (hInv : compute_inverse env M
      (gramASpec (zetaOf ops (sqrt_2_alpha_over_m ops scaling M) W
        (sampleB env ops M) X) noise) = .ok Ainv)
    (hN : N ≠ 0) :
    sampleCore env ops M N D ls scaling noise kn X Y
      = .ok (buildFns ops ⟨W, sampleB env ops M,
          env.mvnDraw M
            (postMeanSpec Ainv
              (zetaOf ops (sqrt_2_alpha_over_m ops scaling M) W (sampleB env ops M) X)
              Y noise)
            Ainv,
          sqrt_2_alpha_over_m ops scaling M⟩) := by
  have hInv2 : compute_inverse env M
      (gramA (zetaOf ops (sqrt_2_alpha_over_m ops scaling M) W
        (sampleB env ops M) X) noise) = .ok Ainv := hInv
  simp only [sampleCore, hW, hInv2]
  rw [dif_neg hN]
  rw [rff_approximation, dif_pos rfl, rff_approximation_gradient, dif_pos rfl]
  rfl

/-- Concrete one-point, one-dimension data for the closed witnesses. -/
def ls0 : Fin 1 → ℚ := fun _ => 1

/-- Concrete `(1,1)` training input. -/
def X0 : Matrix (Fin 1) (Fin 1) ℚ := Matrix.of fun _ _ => 0

/-- Concrete `(1,)` training output. -/
def Y0 : Fin 1 → ℚ := fun _ => 0

/-- The `W` that `env0` produces for `ls0` under the Gaussian branch. -/
def W0 : Matrix (Fin 1) (Fin 1) ℚ :=
  Matrix.of fun m d => env0.draw 0 m.val d.val (p_w .inf ls0 d)

/-- The training embedding for the witness data. -/
def zeta0 : Matrix (Fin 1) (Fin 1) ℚ :=
  zetaOf ops0 (sqrt_2_alpha_over_m ops0 1 1) W0 (sampleB env0 ops0 1) X0

/-- The regularized Gram matrix for the witness data (also the value that
the always-succeeding Cholesky oracle of `env0` returns as its inverse). -/
def A0 : Matrix (Fin 1) (Fin 1) ℚ := gramASpec zeta0 1

/-- Witness for C3 at the concrete one-point data. -/
theorem sample_rff_posterior_witness :
    sampleCore env0 ops0 1 1 1 ls0 1 1 .inf X0 Y0
      = .ok (buildFns ops0 ⟨W0, sampleB env0 ops0 1,
          env0.mvnDraw 1 (postMeanSpec A0 zeta0 Y0 1) A0,
          sqrt_2_alpha_over_m ops0 1 1⟩) :=
  by
  have hv : ∀ d : Fin 1, (p_w EFloat.inf ls0 d).valid = true := by
    intro d
    show (Dist.normal 0 ((1 : ℚ) / 1)).valid = true
    simp [Dist.valid]
  have hW : sampleW env0 1 EFloat.inf ls0 = .ok W0 := by
    rw [sampleW, dif_pos hv]
    rfl
  exact sample_rff_posterior env0 ops0 ls0 1 1 .inf X0 Y0 W0 A0 hW rfl (by decide)

/-- Claim C2, amended: provided additionally that no lengthscale is
negative and that a finite `kernel_nu` is positive, the spectral sampling
step never fails, every entry of the `(M,D)` array `W` is drawn from a
zero-mean Gaussian with per-dimension scale `1/lengthscales d` when
`kernel_nu` is infinite and from a Student-t with `kernel_nu` degrees of
freedom, location 0 and the same per-dimension scale otherwise, and the
`(M,1)` array `B` is drawn entrywise from the uniform distribution on
`[0, 2*pi)`.  (Unamended, the no-failure part is refuted by
`sampling_fails_after_validation`.) -/
theorem spectral_sampling_spec (env : Env) (ops : NumOps) {D : ℕ} (M : ℕ)
    (kn : EFloat) (ls : Fin D → ℚ)
    (hls : ∀ d, 0 ≤ ls d) (hdf : ∀ q, kn = .fin q → 0 < q) :
    sampleW env M kn ls
      = .ok (Matrix.of fun m d => env.draw 0 m.val d.val (p_w kn ls d))
    ∧ (∀ d, p_w kn ls d = if kn.isinf then Dist.normal 0 (1 / ls d)
        else Dist.studentT kn.val 0 (1 / ls d))
    ∧ sampleB env ops M
      = Matrix.of fun m j => env.draw 1 m.val j.val (.uniform 0 (2 * ops.pi)) := by
  refine ⟨?_, fun d => rfl, rfl⟩
  have hv : ∀ d : Fin D, (p_w kn ls d).valid = true := by
    intro d
    unfold p_w
    cases kn with
    | inf => simp [Dist.valid, EFloat.isinf, one_div_nonneg, hls d]
    | ninf => simp [Dist.valid, EFloat.isinf, one_div_nonneg, hls d]
    | fin q =>
      simp [Dist.valid, EFloat.isinf, EFloat.val, one_div_nonneg, hls d, hdf q rfl]
  rw [sampleW, dif_pos hv]

/-- Witness for the amended C2 at positive lengthscales and infinite
`kernel_nu`. -/
theorem spectral_sampling_spec_witness :
    sampleW env0 1 EFloat.inf ls0
      = .ok (Matrix.of fun m d => env0.draw 0 m.val d.val (p_w EFloat.inf ls0 d))
    ∧ (∀ d : Fin 1, p_w EFloat.inf ls0 d
        = if EFloat.isinf EFloat.inf then Dist.normal 0 (1 / ls0 d)
          else Dist.studentT (EFloat.val EFloat.inf) 0 (1 / ls0 d))
    ∧ sampleB env0 ops0 1
      = Matrix.of fun m j => env0.draw 1 m.val j.val (.uniform 0 (2 * ops0.pi)) :=
  spectral_sampling_spec env0 ops0 1 EFloat.inf ls0
    (fun _ => by norm_num [ls0]) (fun q h => nomatch h)

/-- A lengthscales argument holding a single negative value. -/
def lsNegA : Arr ℚ := Arr.vec 1 (fun _ => (-1 : ℚ))

/-- A lengthscales argument holding a single positive value. -/
def lsPosA : Arr ℚ := Arr.vec 1 (fun _ => (1 : ℚ))

/-- A `(1,1)` training-input argument. -/
def XA : Arr ℚ := Arr.mat 1 1 (Matrix.of fun _ _ => 0)

/-- A `(1,)` training-output argument. -/
def YA : Arr ℚ := Arr.vec 1 (fun _ => (0 : ℚ))

/-- The negative lengthscale as a plain vector. -/
def lnegF : Fin 1 → ℚ := fun _ => (-1 : ℚ)

/-- The positive lengthscale as a plain vector. -/
def lposF : Fin 1 → ℚ := fun _ => (1 : ℚ)

/-- Counterexample to C2 as stated: with `lengthscales = [-1]` every
validation check of lines 107-122 passes (the shape facts and the
`kernel_nu` check are recorded as conjuncts), yet `sample_rff` fails with
the `ValueError` that `numpy.random.normal` raises for the negative scale
`1/(-1)` — so sampling can fail on inputs that passed validation. -/
theorem sampling_fails_after_validation :
    sample_rff env0 ops0 lsNegA (Arr.scalarA 1) (Arr.scalarA 1) (Arr.scalarA EFloat.inf)
      XA YA 1 = .error .valueError
    ∧ XA.shape2.1 = YA.len1
    ∧ lsNegA.shapeA1 = [XA.shape2.2]
    ∧ (Arr.scalarA (1 : ℚ)).ndim = 0
    ∧ kernel_nu_check (Arr.scalarA EFloat.inf) = .ok EFloat.inf := by
  refine ⟨?_, rfl, rfl, rfl, rfl⟩
  have step : sample_rff env0 ops0 lsNegA (Arr.scalarA 1) (Arr.scalarA 1)
      (Arr.scalarA EFloat.inf) XA YA 1
      = sampleCore env0 ops0 1 1 1 lnegF 1 1 EFloat.inf (Matrix.of fun _ _ => 0)
        (fun _ => 0) := rfl
  rw [step]
  have hnv : ¬ ∀ d : Fin 1, (p_w EFloat.inf lnegF d).valid = true := by
    intro hall
    have h0 := hall 0
    rw [show p_w EFloat.inf lnegF 0 = Dist.normal 0 (1 / (-1 : ℚ)) from rfl] at h0
    norm_num [Dist.valid] at h0
  have hW : sampleW env0 1 EFloat.inf lnegF = .error .valueError := by
    rw [sampleW, dif_neg hnv]
  simp only [sampleCore, hW]

/-- Claim C1 (the code): line 121 reads
`if not numpy.isscalar(kernel_nu) and kernel_nu > 0:`, which by Python
precedence never fires for a scalar `kernel_nu`; so the non-positive
scalar `kernel_nu = -1` passes the check without `DtypeError` and the
call instead fails later, inside `scipy.stats.t.rvs`, with the
`ValueError` for the non-positive degrees of freedom. -/
theorem kernel_nu_validation_bug :
    kernel_nu_check (Arr.scalarA (EFloat.fin (-1))) = .ok (EFloat.fin (-1))
    ∧ sample_rff env0 ops0 lsPosA (Arr.scalarA 1) (Arr.scalarA 1)
        (Arr.scalarA (EFloat.fin (-1))) XA YA 1 = .error .valueError := by
  refine ⟨rfl, ?_⟩
  have step : sample_rff env0 ops0 lsPosA (Arr.scalarA 1) (Arr.scalarA 1)
      (Arr.scalarA (EFloat.fin (-1))) XA YA 1
      = sampleCore env0 ops0 1 1 1 lposF 1 1 (EFloat.fin (-1))
        (Matrix.of fun _ _ => 0) (fun _ => 0) := rfl
  rw [step]
  have hnv : ¬ ∀ d : Fin 1, (p_w (EFloat.fin (-1)) lposF d).valid = true := by
    intro hall
    have h0 := hall 0
    rw [show p_w (EFloat.fin (-1)) lposF 0
        = Dist.studentT (-1) 0 (1 / (1 : ℚ)) from rfl] at h0
    norm_num [Dist.valid] at h0
  have hW : sampleW env0 1 (EFloat.fin (-1)) lposF = .error .valueError := by
    rw [sampleW, dif_neg hnv]
  simp only [sampleCore, hW]

/-- Claim C8: whenever (after the rank normalization of lines 108-112)
the leading dimension of `X` differs from `len(Y)`, or the lengthscales
shape differs from `(D,)` with `D = X.shape[1]`, or `scaling` or `noise`
is not 0-dimensional, `sample_rff` raises `ShapeError`; the environment
of random and linear-algebra oracles is arbitrary and unconsulted, i.e.
the error is raised during validation, before any sampling. -/
theorem validation_shape_errors (env : Env) (ops : NumOps)
    (ls scaling noise : Arr ℚ) (kn : Arr EFloat) (X Y : Arr ℚ) (M : ℕ)
    (h : X.shape2.1 ≠ Y.len1 ∨ ls.shapeA1 ≠ [X.shape2.2]
      ∨ scaling.ndim ≠ 0 ∨ noise.ndim ≠ 0) :
    sample_rff env ops ls scaling noise kn X Y M = .error .shapeError := by
  unfold sample_rff
  split_ifs with h1 h2 h3 h4
  · rcases h with h | h | h | h
    · exact absurd h1 h
    · exact absurd h2 h
    · exact absurd h3 h
    · exact absurd h4 h
  all_goals rfl

/-- Witness for C8: a one-row `X` against a length-2 `Y`. -/
theorem validation_shape_errors_witness :
    sample_rff env0 ops0 lsPosA (Arr.scalarA 1) (Arr.scalarA 1) (Arr.scalarA EFloat.inf)
      XA (Arr.vec 2 (fun _ => 0)) 1 = .error .shapeError :=
  validation_shape_errors env0 ops0 lsPosA (Arr.scalarA 1) (Arr.scalarA 1)
    (Arr.scalarA EFloat.inf) XA (Arr.vec 2 (fun _ => 0)) 1 (Or.inl (by decide))

end Pyrff
